import Mathlib

/-!
Verification development for the stock-news analysis pipeline.

The Python sources are shallowly embedded here:
* text is `List Char` (Python `str`), with structural re-implementations of
  `str.lower`, substring membership (`in`), `str.split('.')` and `str.strip`,
  so that every definition evaluates inside the kernel;
* machine floats are modelled as exact rationals (`ℚ`) for the sentiment
  pipeline, and as reals (`ℝ`) for the trend predictor (whose volatility
  feature needs a square root);
* timestamps are epoch seconds (`ℤ`); a missing or unparseable publish date
  is `Option.none`;
* fallible external calls (news HTTP fetch, text-generation call) are
  modelled as explicit outcome values supplied to the embedded functions.
-/

namespace StockNews

/-! ## Text primitives (Python `str` operations) -/

/-- Python `c.lower()` for a single ASCII character. -/
def charLower (c : Char) : Char :=
  if 'A' ≤ c ∧ c ≤ 'Z' then Char.ofNat (c.toNat + 32) else c

/-- Python `s.lower()`. -/
def lowerText (l : List Char) : List Char := l.map charLower

/-- Python `pat in text` (substring membership). -/
def containsSub (text pat : List Char) : Bool := decide (pat <:+: text)

/-- Helper for `splitOnDot`, accumulating the current chunk in reverse. -/
def splitOnDotAux : List Char → List Char → List (List Char)
  | [], acc => [acc.reverse]
  | x :: xs, acc =>
      if x = '.' then acc.reverse :: splitOnDotAux xs [] else splitOnDotAux xs (x :: acc)

/-- Python `s.split('.')`. -/
def splitOnDot (l : List Char) : List (List Char) := splitOnDotAux l []

/-- Python whitespace test used by `str.strip()`. -/
def isSpaceChar (c : Char) : Bool := c = ' ' || c = '\t' || c = '\n' || c = '\r'

/-- Python `s.strip()`. -/
def trimText (l : List Char) : List Char :=
  ((l.dropWhile isSpaceChar).reverse.dropWhile isSpaceChar).reverse

/-! ## Impact classifier (`news_analyzer.py`, `NewsAnalyzer`)

`_simple_analysis` is the deterministic lexicon fallback; `_analyze_article`
first tries the external text-generation service and falls back on any
failure.  The external call's result is modelled by `RemoteOutcome`:
`.ok` stands for an HTTP-200 response whose JSON parsed with all four keys
present, `.fallback` for every path that reaches `_simple_analysis`
(missing API key, non-200 status, timeout/exception, or parse failure). -/

def very_positive_label : List Char := "Very Positive".toList

def somewhat_positive_label : List Char := "Somewhat Positive".toList

def ambivalent_label : List Char := "Ambivalent".toList

def somewhat_negative_label : List Char := "Somewhat Negative".toList

def very_negative_label : List Char := "Very Negative".toList

/-- The five enumerated impact labels of the data model. -/
def five_labels : List (List Char) :=
  [very_positive_label, somewhat_positive_label, ambivalent_label,
   somewhat_negative_label, very_negative_label]

/-- `impact_phrases['Very Positive']`. -/
def very_positive_phrases : List (List Char) :=
  ["surge".toList, "breakthrough".toList, "exceeds expectations".toList, "record high".toList]

/-- `impact_phrases['Somewhat Positive']`. -/
def somewhat_positive_phrases : List (List Char) :=
  ["increase".toList, "growth".toList, "improvement".toList, "gains".toList]

/-- `impact_phrases['Somewhat Negative']`. -/
def somewhat_negative_phrases : List (List Char) :=
  ["decline".toList, "below expectations".toList, "challenges".toList]

/-- `impact_phrases['Very Negative']`. -/
def very_negative_phrases : List (List Char) :=
  ["plunge".toList, "crisis".toList, "major setback".toList, "significant loss".toList]

/-- Number of phrases of one tier present in the lowercased text
(`impact_scores[level]` after the counting loop: one point per phrase
whose lowercase form occurs in the text). -/
def phrase_score (text_lower : List Char) (phrases : List (List Char)) : ℕ :=
  (phrases.filter (fun p => containsSub text_lower (lowerText p))).length

/-- Python `max(items, key=lambda x: x[1])`: fold that keeps the current
best and replaces it only on a strictly larger key, so the first maximal
element (in iteration order) wins ties. -/
def py_max_by : (List Char × ℕ) → List (List Char × ℕ) → List Char × ℕ
  | best, [] => best
  | best, x :: xs => py_max_by (if best.2 < x.2 then x else best) xs

/-- The label selection of `_simple_analysis` lines 193-197, as a function of
the four tier scores (in the dict insertion order Very Positive, Somewhat
Positive, Somewhat Negative, Very Negative). -/
def select_impact (a b c d : ℕ) : List Char :=
  if max (max a b) (max c d) = 0 then ambivalent_label
  else (py_max_by (very_positive_label, a)
        [(somewhat_positive_label, b), (somewhat_negative_label, c),
         (very_negative_label, d)]).1

/-- The same selection as the spec words it, after correction: the tier with
the highest match count wins, zero matches give Ambivalent, and a tie for
the highest count is resolved to the earliest tier in the fixed order
Very Positive, Somewhat Positive, Somewhat Negative, Very Negative. -/
def select_impact_spec (a b c d : ℕ) : List Char :=
  if a = 0 ∧ b = 0 ∧ c = 0 ∧ d = 0 then ambivalent_label
  else if b ≤ a ∧ c ≤ a ∧ d ≤ a then very_positive_label
  else if c ≤ b ∧ d ≤ b then somewhat_positive_label
  else if d ≤ c then somewhat_negative_label
  else very_negative_label

/-- Python `f"{title}. {description}"`. -/
def combined_text (title description : List Char) : List Char :=
  title ++ '.' :: ' ' :: description

/-- The lowercased combined text scored by the fallback classifier. -/
def text_lower_of (title description : List Char) : List Char :=
  lowerText (combined_text title description)

/-- The classifier's verdict for one article (dict returned by
`_analyze_article` / `_simple_analysis`). -/
structure Verdict where
  article_summary : List Char
  significance : List Char
  market_impact : List Char
  impact_explanation : List Char
deriving DecidableEq, Repr

/-- `NewsAnalyzer._simple_analysis`: deterministic fallback producing a
summary, significance text, impact label and explanation. -/
def simple_analysis (title description : List Char) : Verdict :=
  let summary_sentences :=
    (if title.isEmpty then [] else [(splitOnDot title).headD []]) ++
    (if description.isEmpty then []
     else if 1 < (splitOnDot description).length then
       [trimText ((splitOnDot description).getD 1 [])]
     else [])
  let article_summary := List.intercalate ('.' :: [' ']) summary_sentences
  let tl := text_lower_of title description
  let svp := phrase_score tl very_positive_phrases
  let ssp := phrase_score tl somewhat_positive_phrases
  let ssn := phrase_score tl somewhat_negative_phrases
  let svn := phrase_score tl very_negative_phrases
  let market_impact := select_impact svp ssp ssn svn
  let impact_explanation :=
    if max (max svp ssp) (max ssn svn) = 0 then
      "News has mixed or unclear implications for the company\x27s performance".toList
    else
      "Multiple indicators suggest ".toList ++ lowerText market_impact ++
        " impact on company value".toList
  let significance :=
    "This news potentially affects the company\x27s market position and business operations. ".toList
      ++ impact_explanation ++ ".".toList
  ⟨article_summary, significance, market_impact, impact_explanation⟩

/-- Outcome of the external text-generation call for one article. `.ok`
carries the four parsed fields of an HTTP-200, schema-valid response;
`.fallback` covers every path that ends in `_simple_analysis` (no API key,
non-200 status, exception, or parse failure). -/
inductive RemoteOutcome where
  | ok (article_summary deep_analysis market_impact trading_thesis : List Char)
  | fallback
deriving DecidableEq, Repr

/-- `NewsAnalyzer._analyze_article`: returns `none` when title or
description is missing/empty; otherwise the remote verdict (fields renamed
for the frontend) or the fallback analysis. -/
def analyze_article (title description : List Char) (outcome : RemoteOutcome) :
    Option Verdict :=
  if title.isEmpty || description.isEmpty then none
  else
    match outcome with
    | .ok s da mi tt => some ⟨s, da, mi, tt⟩
    | .fallback => some (simple_analysis title description)

/-! ### Helper lemmas for C1/C2 -/

lemma select_impact_eq_spec (a b c d : ℕ) :
    select_impact a b c d = select_impact_spec a b c d := by
  unfold select_impact select_impact_spec
  simp only [py_max_by]
  split_ifs <;> first | rfl | omega

lemma select_impact_mem_five (a b c d : ℕ) :
    select_impact a b c d ∈ five_labels := by
  rw [select_impact_eq_spec]
  unfold select_impact_spec five_labels
  split_ifs <;> simp

lemma simple_analysis_market_impact (title description : List Char) :
    (simple_analysis title description).market_impact =
      select_impact
        (phrase_score (text_lower_of title description) very_positive_phrases)
        (phrase_score (text_lower_of title description) somewhat_positive_phrases)
        (phrase_score (text_lower_of title description) somewhat_negative_phrases)
        (phrase_score (text_lower_of title description) very_negative_phrases) := by
  simp only [simple_analysis]

/-! ### Claims C1 and C2 -/

/-- C1 counterexample: the claim says an unrecognized label from the external
service is coerced to Ambivalent, but `_analyze_article` passes the parsed
`market_impact` string through verbatim; here the service answers
"Bullish-ish", which reaches the verdict unchanged, is not one of the five
enumerated labels, and is not Ambivalent. -/
theorem C1_counterexample :
    (analyze_article "Apple earnings beat".toList "Shares move.".toList
        (.ok "sum".toList "deep".toList "Bullish-ish".toList "thesis".toList)).map
        Verdict.market_impact = some "Bullish-ish".toList ∧
      "Bullish-ish".toList ∉ five_labels ∧
      "Bullish-ish".toList ≠ ambivalent_label := by
  refine ⟨rfl, ?_, by decide⟩
  decide

/-- C1, amended: only the fallback lexicon classifier guarantees one of the
five enumerated labels; every verdict produced by `_analyze_article` on the
fallback path carries a label among the five (the remote path passes the
external string through unvalidated). -/
theorem C1_amended_fallback_label_valid (title description : List Char)
    (v : Verdict) (h : analyze_article title description .fallback = some v) :
    v.market_impact ∈ five_labels := by
  unfold analyze_article at h
  split at h
  · exact absurd h (by simp)
  · have hv : v = simple_analysis title description := by
      simpa using h.symm
    rw [hv, simple_analysis_market_impact]
    exact select_impact_mem_five _ _ _ _

/-- C1 witness: the amended theorem at a concrete fallback verdict. -/
theorem C1_witness :
    (simple_analysis "Revenue growth".toList "Margins up.".toList).market_impact
      ∈ five_labels :=
  C1_amended_fallback_label_valid "Revenue growth".toList "Margins up.".toList _ rfl

/-- C2 counterexample: the claim says a tie for the highest match count
resolves to Ambivalent, but on the text "surge. plunge" the Very Positive
and Very Negative tiers tie at one match each and the classifier returns
Very Positive (Python `max` keeps the first maximal item). -/
theorem C2_counterexample :
    phrase_score (text_lower_of "surge".toList "plunge".toList) very_positive_phrases = 1 ∧
      phrase_score (text_lower_of "surge".toList "plunge".toList) very_negative_phrases = 1 ∧
      (simple_analysis "surge".toList "plunge".toList).market_impact =
        very_positive_label ∧
      (simple_analysis "surge".toList "plunge".toList).market_impact ≠
        ambivalent_label := by
  refine ⟨by decide, by decide, ?_, ?_⟩ <;>
    · rw [simple_analysis_market_impact]
      decide

/-- C2, amended: the fallback label is the tier with the highest phrase-match
count, zero matches resolve to Ambivalent, and a tie for the highest count
resolves to the earliest tier in the fixed order Very Positive, Somewhat
Positive, Somewhat Negative, Very Negative (not to Ambivalent). -/
theorem C2_amended_first_tier_wins (title description : List Char) :
    (simple_analysis title description).market_impact =
      select_impact_spec
        (phrase_score (text_lower_of title description) very_positive_phrases)
        (phrase_score (text_lower_of title description) somewhat_positive_phrases)
        (phrase_score (text_lower_of title description) somewhat_negative_phrases)
        (phrase_score (text_lower_of title description) very_negative_phrases) := by
  rw [simple_analysis_market_impact, select_impact_eq_spec]

/-! ## Sentiment analyzer (`sentiment_analyzer.py`, `SentimentAnalyzer`)

Lexical polarity scoring (TextBlob) is an external library; it is modelled
as a function parameter `pol` mapping a text to its polarity score.
Timestamps are epoch seconds; `published_at = none` stands for a missing,
empty, or unparseable publish date (all of which the source rejects). -/

/-- `self.market_keywords`: the fixed market-relevance lexicon. -/
def market_keywords : List (List Char) :=
  ["stock price".toList, "market cap".toList, "trading volume".toList,
   "earnings report".toList, "quarterly results".toList, "revenue growth".toList,
   "profit margin".toList, "market share".toList, "analyst rating".toList,
   "price target".toList, "financial results".toList, "market performance".toList]

/-- `timedelta(days=7)` in epoch seconds. -/
def seven_days : ℤ := 7 * 86400

/-- Python `(title + ' ' + description).lower()`. -/
def relevance_text (title description : List Char) : List Char :=
  lowerText (title ++ ' ' :: description)

/-- Count of market-relevance keywords present in the lowercased text
(`sum(1 for keyword in self.market_keywords if keyword.lower() in text)`). -/
def keyword_matches (text : List Char) : ℕ :=
  (market_keywords.filter (fun k => containsSub text (lowerText k))).length

/-- `SentimentAnalyzer._is_relevant_news`: rejects articles with missing
title, description or publish date, rejects articles older than seven days,
and otherwise requires at least two matched relevance keywords. -/
def is_relevant_news (now : ℤ) (title description : List Char)
    (published_at : Option ℤ) : Bool :=
  if title.isEmpty || description.isEmpty then false
  else
    match published_at with
    | none => false
    | some pub =>
        if seven_days < now - pub then false
        else decide (2 ≤ keyword_matches (relevance_text title description))

/-- Direction/impact pair returned by `_get_sentiment_trend`. -/
structure TrendInfo where
  direction : List Char
  impact : List Char
deriving DecidableEq, Repr

/-- `SentimentAnalyzer._get_sentiment_trend`: fixed five-level threshold
table over the pooled weighted mean. -/
def get_sentiment_trend (sentiment_score : ℚ) : TrendInfo :=
  if 1/2 ≤ sentiment_score then ⟨"Strong Bullish".toList, "High Positive".toList⟩
  else if 1/5 ≤ sentiment_score then ⟨"Bullish".toList, "Positive".toList⟩
  else if sentiment_score ≤ -(1/2) then ⟨"Strong Bearish".toList, "High Negative".toList⟩
  else if sentiment_score ≤ -(1/5) then ⟨"Bearish".toList, "Negative".toList⟩
  else ⟨"Neutral".toList, "Low".toList⟩

/-- The direction table exactly as the claim words it, with two-sided
interval bounds. -/
def direction_spec (m : ℚ) : List Char :=
  if 1/2 ≤ m then "Strong Bullish".toList
  else if 1/5 ≤ m ∧ m < 1/2 then "Bullish".toList
  else if m ≤ -(1/2) then "Strong Bearish".toList
  else if -(1/2) < m ∧ m ≤ -(1/5) then "Bearish".toList
  else "Neutral".toList

/-- Per-symbol sentiment verdict (the dict returned by
`analyze_market_sentiment`; the display-only `key_insights` and `timestamp`
fields are omitted). -/
structure SymbolSentiment where
  average_sentiment : ℚ
  sentiment_direction : List Char
  confidence : ℚ
  news_count : ℕ
  market_impact : List Char
deriving DecidableEq, Repr

/-- `SentimentAnalyzer._get_neutral_sentiment` (the source returns its count
under the key `total_posts`; it is zero either way). -/
def get_neutral_sentiment : SymbolSentiment :=
  ⟨0, "Neutral".toList, 0, 0, "No Impact".toList⟩

/-- A raw news article as consumed by `analyze_market_sentiment`. -/
structure NewsArticle where
  title : List Char
  description : List Char
  published_at : Option ℤ
deriving DecidableEq, Repr

/-- The confidence formula of `analyze_market_sentiment` line 284:
`min(len(relevant_articles)/10, 1.0) * (1 + abs(weighted_sentiment))`;
the reported confidence is this value times 100. -/
def confidence_score (n : ℕ) (m : ℚ) : ℚ :=
  min ((n : ℚ) / 10) 1 * (1 + |m|)

/-- The pooled (score, weight) pairs collected by the article loop: for each
relevant article, the title polarity weighted `1.5 + |score|`, then the
description polarity weighted `1.0` (descriptions of relevant articles are
never empty, but the source's `if description:` guard is kept). -/
def article_sentiments (pol : List Char → ℚ) (relevant : List NewsArticle) :
    List (ℚ × ℚ) :=
  relevant.flatMap (fun a =>
    (pol a.title, 3/2 + |pol a.title|) ::
      (if a.description.isEmpty then [] else [(pol a.description, 1)]))

/-- `SentimentAnalyzer.analyze_market_sentiment`: filters relevant articles,
pools weighted title/description polarities, and produces the per-symbol
verdict; any fetch failure (`status ≠ 200`) or empty pool yields the
neutral verdict. -/
def analyze_market_sentiment (pol : List Char → ℚ) (now : ℤ) (status : ℕ)
    (articles : List NewsArticle) : SymbolSentiment :=
  if status ≠ 200 then get_neutral_sentiment
  else
    let relevant := articles.filter
      (fun a => is_relevant_news now a.title a.description a.published_at)
    let sentiments := article_sentiments pol relevant
    if sentiments.isEmpty then get_neutral_sentiment
    else
      let total_weight := (sentiments.map (fun p => p.2)).sum
      let weighted := (sentiments.map (fun p => p.1 * p.2)).sum / total_weight
      ⟨weighted, (get_sentiment_trend weighted).direction,
        confidence_score relevant.length weighted * 100,
        relevant.length, (get_sentiment_trend weighted).impact⟩

/-! ## Market mood aggregator (`SentimentAnalyzer.get_market_mood`) -/

/-- One per-symbol social-sentiment result as consumed by
`get_market_mood` (produced upstream by `analyze_social_sentiment`). -/
structure SocialResult where
  average_sentiment : ℚ
  confidence : ℚ
  total_posts : ℕ
deriving DecidableEq, Repr

/-- The portfolio-wide mood record returned by `get_market_mood`. -/
structure MarketMood where
  market_sentiment : ℚ
  analyzed_symbols : ℕ
  total_posts : ℕ
  average_confidence : ℚ
deriving DecidableEq, Repr

/-- The symbol loop of `get_market_mood`: accumulates the kept results,
the running confidence total and the running post total, keeping only
results with at least one post. -/
def mood_loop : List SocialResult → List SocialResult × ℚ × ℕ →
    List SocialResult × ℚ × ℕ
  | [], acc => acc
  | s :: rest, (all, tc, tp) =>
      mood_loop rest
        (if 0 < s.total_posts then (all ++ [s], tc + s.confidence, tp + s.total_posts)
         else (all, tc, tp))

/-- `SentimentAnalyzer.get_market_mood`: returns `none` when no symbol has
posts; otherwise divides the weighted sentiment sum by
`total_confidence * len(all_sentiments)` (or by 1 when that product is not
positive). -/
def get_market_mood (results : List SocialResult) : Option MarketMood :=
  let acc := mood_loop results ([], 0, 0)
  let all := acc.1
  let tc := acc.2.1
  let tp := acc.2.2
  if all.isEmpty then none
  else
    let denom : ℚ := if 0 < tc * all.length then tc * all.length else 1
    some ⟨(all.map (fun s =>
        s.average_sentiment * (s.confidence / 100) * (s.total_posts : ℚ))).sum / denom,
      all.length, tp, tc / all.length⟩

/-! ### Helper lemmas for the sentiment pipeline -/

lemma sum_weights_pos (l : List (ℚ × ℚ)) (hl : l ≠ [])
    (h : ∀ p ∈ l, 0 < p.2) : 0 < (l.map (fun p => p.2)).sum := by
  rcases l with _ | ⟨p, l⟩
  · exact absurd rfl hl
  · simp only [List.map_cons, List.sum_cons]
    have h0 := h p (List.mem_cons_self p l)
    have hrest : 0 ≤ (l.map (fun p => p.2)).sum :=
      List.sum_nonneg (by
        intro x hx
        simp only [List.mem_map] at hx
        obtain ⟨q, hq, rfl⟩ := hx
        exact le_of_lt (h q (List.mem_cons_of_mem p hq)))
    linarith

lemma abs_weighted_sum_le (l : List (ℚ × ℚ))
    (h : ∀ p ∈ l, |p.1| ≤ 1 ∧ 0 < p.2) :
    |(l.map (fun p => p.1 * p.2)).sum| ≤ (l.map (fun p => p.2)).sum := by
  induction l with
  | nil => simp
  | cons p l ih =>
      simp only [List.map_cons, List.sum_cons]
      have hp := h p (List.mem_cons_self p l)
      have ihl := ih (fun q hq => h q (List.mem_cons_of_mem p hq))
      have habs : |p.1 * p.2| ≤ p.2 := by
        rw [abs_mul, abs_of_pos hp.2]
        nlinarith [hp.1, hp.2, abs_nonneg p.1]
      calc |p.1 * p.2 + (l.map (fun p => p.1 * p.2)).sum|
          ≤ |p.1 * p.2| + |(l.map (fun p => p.1 * p.2)).sum| := abs_add _ _
        _ ≤ p.2 + (l.map (fun p => p.2)).sum := by linarith

lemma article_sentiments_mem (pol : List Char → ℚ)
    (hpol : ∀ s, |pol s| ≤ 1) (relevant : List NewsArticle) :
    ∀ p ∈ article_sentiments pol relevant, |p.1| ≤ 1 ∧ 0 < p.2 := by
  intro p hp
  simp only [article_sentiments, List.mem_flatMap] at hp
  obtain ⟨a, ha, hpa⟩ := hp
  rcases List.mem_cons.mp hpa with h | h
  · subst h
    exact ⟨hpol _, by positivity⟩
  · by_cases hd : a.description.isEmpty = true
    · rw [if_pos hd] at h
      exact absurd h (List.not_mem_nil p)
    · rw [if_neg hd] at h
      have := List.mem_singleton.mp h
      subst this
      exact ⟨hpol _, by norm_num⟩

lemma confidence_score_bounds (n : ℕ) (m : ℚ) (hm : |m| ≤ 1) :
    0 ≤ confidence_score n m * 100 ∧ confidence_score n m * 100 ≤ 200 := by
  unfold confidence_score
  have h0 : 0 ≤ min ((n : ℚ) / 10) 1 := le_min (by positivity) zero_le_one
  have h1 : min ((n : ℚ) / 10) 1 ≤ 1 := min_le_right _ _
  have h3 : 0 ≤ 1 + |m| := by positivity
  constructor
  · exact mul_nonneg (mul_nonneg h0 h3) (by norm_num)
  · nlinarith

lemma mood_loop_eq (results : List SocialResult) :
    ∀ (all : List SocialResult) (tc : ℚ) (tp : ℕ),
      mood_loop results (all, tc, tp) =
        (all ++ results.filter (fun s => 0 < s.total_posts),
         tc + ((results.filter (fun s => 0 < s.total_posts)).map
            (fun s => s.confidence)).sum,
         tp + ((results.filter (fun s => 0 < s.total_posts)).map
            (fun s => s.total_posts)).sum) := by
  induction results with
  | nil => intro all tc tp; simp [mood_loop]
  | cons s rest ih =>
      intro all tc tp
      by_cases hs : 0 < s.total_posts
      · simp only [mood_loop, if_pos hs]
        rw [ih]
        simp [List.filter_cons, hs, List.append_assoc, add_assoc]
      · simp only [mood_loop, if_neg hs]
        rw [ih]
        simp [List.filter_cons, hs]

/-- A six-fold repeated article that passes the relevance filter: its title
contains two market keywords and its publish time is current. -/
def keyword_rich_article : NewsArticle :=
  ⟨"stock price market cap".toList, "x".toList, some 0⟩

/-- The two-symbol input of E2E scenario D: symbol A with sentiment 0.5,
confidence 80, 10 posts; symbol B with sentiment -0.5, confidence 20,
2 posts. -/
def mood_example : List SocialResult := [⟨1/2, 80, 10⟩, ⟨-(1/2), 20, 2⟩]

/-! ### Claims C3, C4, C5, C6, C9 -/

/-- C3 counterexample: on E2E scenario D's input the code returns
3.8 / (total_confidence * symbol_count) = 3.8/200 = 19/1000, not the
claimed weighted mean 3.8 / ((80/100)*10 + (20/100)*2) = 19/42: the
denominator in the source is `total_confidence * len(all_sentiments)`,
not the sum of the per-symbol weights. -/
theorem C3_counterexample :
    (get_market_mood mood_example).map MarketMood.market_sentiment =
        some (19/1000) ∧
      ((19 : ℚ)/1000) ≠
        ((1/2 * (80/100) * 10 + -(1/2) * (20/100) * 2) /
          ((80/100 * 10) + (20/100 * 2))) := by
  constructor
  · rw [get_market_mood, mood_loop_eq]
    norm_num [mood_example, List.filter]
  · norm_num

/-- C3, amended: for inputs with at least one posted symbol, the market mood
score is the sum of per-symbol `average_sentiment * (confidence/100) *
post_count` over the kept symbols, divided not by the sum of those weights
but by `total_confidence * number_of_kept_symbols` (with divisor 1 when that
product is not positive). -/
theorem C3_amended_mood_formula (results : List SocialResult)
    (h : ∃ s ∈ results, 0 < s.total_posts) :
    (get_market_mood results).map MarketMood.market_sentiment =
      some (((results.filter (fun s => 0 < s.total_posts)).map (fun s =>
          s.average_sentiment * (s.confidence / 100) * (s.total_posts : ℚ))).sum /
        (if 0 < ((results.filter (fun s => 0 < s.total_posts)).map
              (fun s => s.confidence)).sum *
            (results.filter (fun s => 0 < s.total_posts)).length then
          ((results.filter (fun s => 0 < s.total_posts)).map
              (fun s => s.confidence)).sum *
            (results.filter (fun s => 0 < s.total_posts)).length
         else 1)) := by
  rw [get_market_mood, mood_loop_eq]
  have hne : results.filter (fun s => 0 < s.total_posts) ≠ [] := by
    obtain ⟨s, hs, hp⟩ := h
    intro hnil
    have : s ∈ results.filter (fun s => 0 < s.total_posts) :=
      List.mem_filter.mpr ⟨hs, by simpa using hp⟩
    simp [hnil] at this
  simp [hne]

/-- C3 witness: the amended formula evaluated on E2E scenario D's input. -/
theorem C3_witness :
    (get_market_mood mood_example).map MarketMood.market_sentiment =
      some (((mood_example.filter (fun s => 0 < s.total_posts)).map (fun s =>
          s.average_sentiment * (s.confidence / 100) * (s.total_posts : ℚ))).sum /
        (if 0 < ((mood_example.filter (fun s => 0 < s.total_posts)).map
              (fun s => s.confidence)).sum *
            (mood_example.filter (fun s => 0 < s.total_posts)).length then
          ((mood_example.filter (fun s => 0 < s.total_posts)).map
              (fun s => s.confidence)).sum *
            (mood_example.filter (fun s => 0 < s.total_posts)).length
         else 1)) :=
  C3_amended_mood_formula mood_example
    ⟨⟨1/2, 80, 10⟩, by simp [mood_example], by norm_num⟩

/-- C4 counterexample: six relevant articles whose every polarity score is 1
give a pooled mean of 1 and confidence `min(6/10,1) * (1+1) * 100 = 120`,
which exceeds the claimed upper bound 100. -/
theorem C4_counterexample :
    (analyze_market_sentiment (fun _ => 1) 0 200
        (List.replicate 6 keyword_rich_article)).confidence = 120 ∧
      ¬ ((120 : ℚ) ≤ 100) := by
  have hrel : (List.replicate 6 keyword_rich_article).filter
      (fun a => is_relevant_news 0 a.title a.description a.published_at) =
      List.replicate 6 keyword_rich_article := by decide
  have hd : keyword_rich_article.description ≠ [] := by decide
  have hsen : article_sentiments (fun _ => (1 : ℚ))
      (List.replicate 6 keyword_rich_article) =
      [(1, 5/2), (1, 1), (1, 5/2), (1, 1), (1, 5/2), (1, 1),
       (1, 5/2), (1, 1), (1, 5/2), (1, 1), (1, 5/2), (1, 1)] := by
    norm_num [article_sentiments, List.replicate, hd]
  constructor
  · simp only [analyze_market_sentiment, hrel, hsen]
    norm_num [confidence_score, min_def]
  · norm_num

/-- C4, amended: when every polarity score lies in [-1, 1] (TextBlob's
range), the reported confidence lies in [0, 200]; the formula
`min(count/10, 1) * (1 + |mean|) * 100` is as claimed, but its range is
[0, 200], not [0, 100]. -/
theorem C4_amended_confidence_bounds (pol : List Char → ℚ) (now : ℤ)
    (status : ℕ) (articles : List NewsArticle) (hpol : ∀ s, |pol s| ≤ 1) :
    0 ≤ (analyze_market_sentiment pol now status articles).confidence ∧
      (analyze_market_sentiment pol now status articles).confidence ≤ 200 := by
  by_cases hstat : status ≠ 200
  · simp only [analyze_market_sentiment, if_pos hstat]
    norm_num [get_neutral_sentiment]
  · simp only [analyze_market_sentiment, if_neg hstat]
    set relevant := articles.filter
      (fun a => is_relevant_news now a.title a.description a.published_at) with hrel
    set sentiments := article_sentiments pol relevant with hsen
    by_cases hemp : sentiments.isEmpty = true
    · rw [if_pos hemp]
      norm_num [get_neutral_sentiment]
    · rw [if_neg hemp]
      have hne : sentiments ≠ [] := by
        intro hnil
        rw [hnil] at hemp
        simp at hemp
      have hmem : ∀ p ∈ sentiments, |p.1| ≤ 1 ∧ 0 < p.2 := by
        rw [hsen]
        exact article_sentiments_mem pol hpol relevant
      have hWpos : 0 < (sentiments.map (fun p => p.2)).sum :=
        sum_weights_pos _ hne (fun p hp => (hmem p hp).2)
      have hS : |(sentiments.map (fun p => p.1 * p.2)).sum| ≤
          (sentiments.map (fun p => p.2)).sum := abs_weighted_sum_le _ hmem
      have hm : |(sentiments.map (fun p => p.1 * p.2)).sum /
          (sentiments.map (fun p => p.2)).sum| ≤ 1 := by
        rw [abs_div, abs_of_pos hWpos]
        exact (div_le_one hWpos).mpr hS
      simpa using confidence_score_bounds relevant.length _ hm

/-- C4 witness: the amended bounds at the all-zero polarity function on an
empty article list. -/
theorem C4_witness :
    0 ≤ (analyze_market_sentiment (fun _ => 0) 0 200 []).confidence ∧
      (analyze_market_sentiment (fun _ => 0) 0 200 []).confidence ≤ 200 :=
  C4_amended_confidence_bounds (fun _ => 0) 0 200 [] (fun s => by norm_num)

/-- C5: the direction label is a pure function of the pooled mean obeying
the claimed threshold table exactly (m ≥ 0.5 Strong Bullish; 0.2 ≤ m < 0.5
Bullish; m ≤ -0.5 Strong Bearish; -0.5 < m ≤ -0.2 Bearish; -0.2 < m < 0.2
Neutral). -/
theorem C5_direction_table (m : ℚ) :
    (get_sentiment_trend m).direction = direction_spec m := by
  unfold get_sentiment_trend direction_spec
  split_ifs <;> first | rfl | (exfalso; simp_all; try linarith)

/-- C6 counterexample: the claimed "accepted iff 2 keywords and recent" is
violated by an article with an empty title: its description alone matches
two keywords and its date is current, yet the filter rejects it because
`_is_relevant_news` first rejects any article with a missing/empty title or
description. -/
theorem C6_counterexample :
    is_relevant_news 0 "".toList "stock price and market cap rise".toList
        (some 0) = false ∧
      2 ≤ keyword_matches
        (relevance_text "".toList "stock price and market cap rise".toList) ∧
      ¬ (seven_days < (0 : ℤ) - 0) := by
  refine ⟨rfl, by decide, by decide⟩

/-- C6, amended: for articles with a non-empty title, a non-empty
description and a parseable publish date, the filter accepts exactly when
at least 2 relevance keywords match and the publish time is within the
7-day window; articles with an empty title or description are always
rejected regardless of keyword count. -/
theorem C6_amended_relevance_iff (now : ℤ) (title description : List Char)
    (pub : ℤ) (ht : title ≠ []) (hd : description ≠ []) :
    is_relevant_news now title description (some pub) = true ↔
      (2 ≤ keyword_matches (relevance_text title description) ∧
        now - pub ≤ seven_days) := by
  unfold is_relevant_news
  rcases title with _ | ⟨c, cs⟩
  · exact absurd rfl ht
  rcases description with _ | ⟨e, es⟩
  · exact absurd rfl hd
  simp only [List.isEmpty_cons, Bool.or_self, Bool.false_eq_true, if_false]
  split_ifs with hwin
  · constructor
    · intro h; exact absurd h (by simp)
    · rintro ⟨-, h2⟩; omega
  · constructor
    · intro h; exact ⟨by simpa using h, by omega⟩
    · rintro ⟨h1, -⟩; simpa using h1

/-- C6 witness: the amended equivalence at a concrete two-keyword recent
article. -/
theorem C6_witness :
    is_relevant_news 0 "Stocks rally".toList
        "stock price and market cap rise".toList (some 0) = true ↔
      (2 ≤ keyword_matches (relevance_text "Stocks rally".toList
          "stock price and market cap rise".toList) ∧
        (0 : ℤ) - 0 ≤ seven_days) :=
  C6_amended_relevance_iff 0 "Stocks rally".toList
    "stock price and market cap rise".toList 0 (by decide) (by decide)

/-- C9: the reported confidence is non-decreasing in the relevant-article
count when the pooled mean is held fixed (`min(n/10, 1)` is monotone in `n`
and the remaining factors are non-negative and independent of `n`). -/
theorem C9_confidence_monotone (n₁ n₂ : ℕ) (m : ℚ) (h : n₁ ≤ n₂) :
    confidence_score n₁ m * 100 ≤ confidence_score n₂ m * 100 := by
  unfold confidence_score
  have h1 : ((n₁ : ℚ)) / 10 ≤ (n₂ : ℚ) / 10 := by
    apply div_le_div_of_nonneg_right ?_ (by norm_num)
    exact_mod_cast h
  have h2 : min ((n₁ : ℚ) / 10) 1 ≤ min ((n₂ : ℚ) / 10) 1 := min_le_min h1 le_rfl
  have h3 : (0 : ℚ) ≤ 1 + |m| := by positivity
  nlinarith [h2, h3]

/-- C9 witness: monotonicity at counts 2 ≤ 5 with pooled mean 1/2. -/
theorem C9_witness :
    confidence_score 2 (1/2) * 100 ≤ confidence_score 5 (1/2) * 100 :=
  C9_confidence_monotone 2 5 (1/2) (by norm_num)

/-! ## Article fetch (`NewsAnalyzer.fetch_relevant_news`)

The news HTTP call is modelled by `NewsResponse`: `.transportError` for any
raised transport exception (caught by the outer handler), `.success` for a
reply with a status code and the decoded `articles` list.  The per-article
text-generation outcome is supplied by an oracle function; per-article
exceptions are caught in the source loop and skip the article, which the
`Option` result of `analyze_article` already models. -/

/-- A raw article as decoded from the news API response. -/
structure RawArticle where
  title : List Char
  description : List Char
  url : List Char
  published_at : List Char
deriving DecidableEq, Repr

/-- Outcome of the news API request. -/
inductive NewsResponse where
  | transportError
  | success (status : ℕ) (articles : List RawArticle)
deriving DecidableEq, Repr

/-- One entry of the `processed_articles` list built by
`fetch_relevant_news`. -/
structure ProcessedArticle where
  title : List Char
  article_summary : List Char
  url : List Char
  published_at : List Char
  analysis : Verdict
deriving DecidableEq, Repr

/-- `NewsAnalyzer.fetch_relevant_news`: returns the empty list on transport
failure, non-200 status or empty article list, and otherwise analyzes only
the first four articles (`articles[:4]`), keeping those whose analysis
succeeds. -/
def fetch_relevant_news (resp : NewsResponse)
    (oracle : RawArticle → RemoteOutcome) : List ProcessedArticle :=
  match resp with
  | .transportError => []
  | .success status articles =>
      if status ≠ 200 then []
      else if articles.isEmpty then []
      else (articles.take 4).filterMap (fun a =>
        (analyze_article a.title a.description (oracle a)).map (fun v =>
          ⟨a.title, v.article_summary, a.url, a.published_at, v⟩))

/-! ### Claims C7 and C10 -/

/-- C7: a transport failure, any non-200 response and an empty decoded
article list each make `fetch_relevant_news` return the empty article
sequence; the embedding is a total function, matching the source's
outermost exception handler that converts any raise into the empty
result. -/
theorem C7_fetch_failure_empty (oracle : RawArticle → RemoteOutcome)
    (status : ℕ) (articles : List RawArticle) (hs : status ≠ 200) :
    fetch_relevant_news .transportError oracle = [] ∧
      fetch_relevant_news (.success status articles) oracle = [] ∧
      fetch_relevant_news (.success 200 []) oracle = [] := by
  refine ⟨rfl, ?_, rfl⟩
  simp [fetch_relevant_news, hs]

/-- C7 witness: the failure cases at HTTP status 500 with one pending
article and the always-fallback oracle. -/
theorem C7_witness :
    fetch_relevant_news .transportError (fun _ => .fallback) = [] ∧
      fetch_relevant_news
        (.success 500 [⟨"t".toList, "d".toList, "u".toList, "p".toList⟩])
        (fun _ => .fallback) = [] ∧
      fetch_relevant_news (.success 200 []) (fun _ => .fallback) = [] :=
  C7_fetch_failure_empty (fun _ => .fallback) 500
    [⟨"t".toList, "d".toList, "u".toList, "p".toList⟩] (by decide)

/-- C10: the processed-article list never has more than 4 entries, and the
fetch result only depends on the first 4 decoded articles. -/
theorem C10_at_most_four (resp : NewsResponse)
    (oracle : RawArticle → RemoteOutcome) :
    (fetch_relevant_news resp oracle).length ≤ 4 ∧
      ∀ status articles,
        fetch_relevant_news (.success status articles) oracle =
          fetch_relevant_news (.success status (articles.take 4)) oracle := by
  constructor
  · match resp with
    | .transportError => simp [fetch_relevant_news]
    | .success status articles =>
        simp only [fetch_relevant_news]
        split_ifs with h1 h2
        · simp
        · simp
        · calc ((articles.take 4).filterMap _).length
              ≤ (articles.take 4).length := List.length_filterMap_le _ _
            _ ≤ 4 := by simp [List.length_take]
  · intro status articles
    have hemp : (articles.take 4).isEmpty = articles.isEmpty := by
      rcases articles with _ | ⟨a, as⟩ <;> simp
    simp only [fetch_relevant_news, List.take_take, hemp]
    norm_num

/-! ## Trend predictor (`predictions.py`, `MarketPredictor`)

The predictor works on price floats; it is modelled over `ℝ` because the
rolling-volatility feature takes a square root.  The fitted scikit-learn
pipeline (standard scaler composed with the linear regressor) is abstracted
as a function parameter from the last feature row to a predicted close
price; fitting itself always succeeds on the rows the ≥ 30 gate admits.
With NaN-free input bars, `dropna()` removes exactly the rows whose rolling
windows are incomplete: index `i` needs `i ≥ 4` for `SMA_5`, `i ≥ 9` for
the 10-period volatility, `i ≥ 5` for the 5-period momentum shift and
`i ≥ 19` for `SMA_20`, so rows `i < 19` are dropped. -/

/-- One OHLCV bar of the price history. -/
structure PriceRow where
  Open : ℝ
  High : ℝ
  Low : ℝ
  Close : ℝ
  Volume : ℝ

instance : Inhabited PriceRow := ⟨⟨0, 0, 0, 0, 0⟩⟩

/-- One row of the feature matrix (the `features` column selection). -/
structure FeatureRow where
  Open : ℝ
  High : ℝ
  Low : ℝ
  Volume : ℝ
  SMA_5 : ℝ
  SMA_20 : ℝ
  volatility : ℝ
  momentum : ℝ

instance : Inhabited FeatureRow := ⟨⟨0, 0, 0, 0, 0, 0, 0, 0⟩⟩

/-- The close price at index `i`. -/
noncomputable def closeAt (data : List PriceRow) (i : ℕ) : ℝ :=
  (data.getD i default).Close

/-- `df['Close'].rolling(window=w).mean()` at a complete-window index. -/
noncomputable def rollingMean (data : List PriceRow) (w i : ℕ) : ℝ :=
  ((List.range w).map (fun j => closeAt data (i - j))).sum / w

/-- `df['Close'].rolling(window=w).std()` (pandas sample standard
deviation, ddof = 1) at a complete-window index. -/
noncomputable def rollingStd (data : List PriceRow) (w i : ℕ) : ℝ :=
  Real.sqrt ((((List.range w).map
    (fun j => (closeAt data (i - j) - rollingMean data w i) ^ 2)).sum) / (w - 1 : ℕ))

/-- The feature row surviving `dropna()` at index `i`, or `none` when some
rolling window is incomplete (`i < 19`) or `i` is out of range. -/
noncomputable def feature_row (data : List PriceRow) (i : ℕ) : Option FeatureRow :=
  if 19 ≤ i ∧ i < data.length then
    some ⟨(data.getD i default).Open, (data.getD i default).High,
      (data.getD i default).Low, (data.getD i default).Volume,
      rollingMean data 5 i, rollingMean data 20 i,
      rollingStd data 10 i, closeAt data i - closeAt data (i - 5)⟩
  else none

/-- The number of complete feature rows left after `dropna()`. -/
noncomputable def complete_feature_rows (data : List PriceRow) : ℕ :=
  ((List.range data.length).filterMap (fun i =>
    (feature_row data i).map (fun f => (f, closeAt data i)))).length

/-- `MarketPredictor.prepare_features`: the `(X, y)` rows (features paired
with the `Close` target), or `none` when fewer than 30 complete rows
remain. -/
noncomputable def prepare_features (data : List PriceRow) :
    Option (List (FeatureRow × ℝ)) :=
  let rows := (List.range data.length).filterMap (fun i =>
    (feature_row data i).map (fun f => (f, closeAt data i)))
  if rows.length < 30 then none else some rows

/-- `MarketPredictor.train`: false on empty history or failed feature
preparation; fitting the scaler and regressor on admitted data always
succeeds. -/
noncomputable def train (data : List PriceRow) : Bool :=
  if data.isEmpty then false
  else
    match prepare_features data with
    | none => false
    | some _ => true

/-- The forecast record returned by `predict_trend` (the
`prediction_date` wall-clock field is omitted). -/
structure TrendForecast where
  trend : List Char
  predicted_change : ℝ
  confidence : ℝ
  predicted_price : ℝ

/-- `MarketPredictor.predict_trend`: `none` on empty history or failed
feature preparation; otherwise predicts from the last feature row, derives
the percent change against the last close, the four-level trend label and
the clamped confidence. -/
noncomputable def predict_trend (model : FeatureRow → ℝ)
    (data : List PriceRow) : Option TrendForecast :=
  if data.isEmpty then none
  else
    match prepare_features data with
    | none => none
    | some rows =>
        let last_price := closeAt data (data.length - 1)
        let prediction := model (rows.getLastD (default, 0)).1
        let predicted_change := (prediction - last_price) / last_price * 100
        let trend :=
          if 1 < predicted_change then "Strong Bullish".toList
          else if 0 < predicted_change then "Bullish".toList
          else if -1 < predicted_change then "Bearish".toList
          else "Strong Bearish".toList
        some ⟨trend, predicted_change,
          |min (max (predicted_change / 5) 0) 1|, prediction⟩

/-! ### Helper lemmas for C8 -/

lemma filterMap_length_eq_filter {α β : Type} (f : α → Option β) (l : List α) :
    (l.filterMap f).length = (l.filter (fun a => (f a).isSome)).length := by
  induction l with
  | nil => rfl
  | cons a l ih =>
      rw [List.filterMap_cons, List.filter_cons]
      cases hfa : f a <;> simp [hfa, ih]

lemma range_filter_ge_length (k n : ℕ) :
    ((List.range n).filter (fun i => decide (k ≤ i))).length = n - k := by
  induction n with
  | zero => simp
  | succ n ih =>
      rw [List.range_succ, List.filter_append, List.length_append, ih]
      by_cases h : k ≤ n <;> simp [h] <;> omega

lemma complete_feature_rows_eq (data : List PriceRow) :
    complete_feature_rows data = data.length - 19 := by
  unfold complete_feature_rows
  rw [filterMap_length_eq_filter]
  rw [List.filter_congr (by
    intro i hi
    have hlt : i < data.length := List.mem_range.mp hi
    show (((feature_row data i).map (fun f => (f, closeAt data i))).isSome) =
      decide (19 ≤ i)
    unfold feature_row
    by_cases h19 : 19 ≤ i
    · rw [if_pos ⟨h19, hlt⟩]
      simp [h19]
    · rw [if_neg (by tauto)]
      simp [h19])]
  exact range_filter_ge_length 19 data.length

lemma prepare_features_isSome (data : List PriceRow) :
    (prepare_features data).isSome = true ↔ 30 ≤ complete_feature_rows data := by
  simp only [prepare_features, complete_feature_rows]
  split_ifs with h
  · simpa using h
  · simpa using h

/-! ### Claim C8 -/

/-- C8: training succeeds exactly when at least 30 complete feature rows
survive the rolling-window drop, and prediction returns a populated
forecast under exactly the same condition (so 29 surviving rows give
`train = false` and `predict = none`, while 31 give `train = true` and a
populated forecast). -/
theorem C8_train_predict_threshold (data : List PriceRow)
    (model : FeatureRow → ℝ) :
    (train data = true ↔ 30 ≤ complete_feature_rows data) ∧
      ((predict_trend model data).isSome = true ↔
        30 ≤ complete_feature_rows data) := by
  have hprep := prepare_features_isSome data
  by_cases hempty : data.isEmpty = true
  · have hlen : data.length = 0 := by
      rcases data with _ | ⟨a, as⟩
      · rfl
      · simp at hempty
    have hc : complete_feature_rows data = 0 := by
      rw [complete_feature_rows_eq, hlen]
    rw [train, predict_trend, if_pos hempty, if_pos hempty, hc]
    norm_num
  · rw [train, predict_trend, if_neg hempty, if_neg hempty]
    rcases hp : prepare_features data with _ | rows <;> rw [hp] at hprep
    · simp only [Option.isSome_none, Bool.false_eq_true, false_iff] at hprep
      exact ⟨by simp [hprep], by simp [hprep]⟩
    · simp only [Option.isSome_some, true_iff] at hprep
      exact ⟨by simp [hprep], by simp [hprep]⟩

end StockNews
